import Mathlib

/-!
Verification of the `exiftool.py` module (PyExifTool): a shallow embedding of
the process supervisor and the sentinel-delimited batch protocol engine,
together with theorems about the behaviours documented for it.

Modelling conventions:
* Python byte strings are `List Char` (`PyStr`).
* The child process and its pipes are external; every side effect performed on
  them (spawning, writing to stdin, flushing, waiting, releasing the handle,
  issuing a warning) is recorded as an `Event` in an event trace returned next
  to the new instance state.
* The successive return values of `os.read` on the child's stdout are supplied
  as a list of chunks; the blocking read loop of `execute` consumes them in
  order, and running out of chunks before the sentinel is seen models an
  indefinite block.
* Raised exceptions become explicit result constructors.
-/

/-- Python strings, modelled as lists of characters. -/
abbrev PyStr := List Char

/-- Module-level constant `executable = "exiftool"` (renamed here because the
instance attribute of the same name shadows it inside the `ExifTool`
namespace). -/
def defaultExecutable : PyStr := "exiftool".data

/-- Module-level constant `sentinel`, the string `"\x7bready\x7d\n"`. -/
def sentinel : PyStr := "\x7bready\x7d\n".data

/-- Module-level constant `block_size = 4096`, the cap passed to `os.read`. -/
def block_size : Nat := 4096

/-- Observable side effects on the child process and its streams. -/
inductive Event where
  | spawn (argv : List PyStr)
  | stdinWrite (s : PyStr)
  | stdinFlush
  | communicate
  | delProcess
  | warn (msg : PyStr)
deriving DecidableEq

/-- The state of one `ExifTool` instance: the configured executable path and
the `running` flag.  The process handle itself is external; its lifecycle is
visible through the event trace. -/
structure ExifTool where
  executable : PyStr
  running : Bool
deriving DecidableEq

/-- `ExifTool.__init__`: store the executable (defaulting to the module-level
`executable`) and set `running = False`. -/
def ExifTool.init (executable_ : Option PyStr) : ExifTool :=
  ⟨executable_.getD defaultExecutable, false⟩

/-- `ExifTool.start`: warn and do nothing if already running; otherwise spawn
the child with the fixed stay-open arguments and set `running = True`. -/
def ExifTool.start (et : ExifTool) : ExifTool × List Event :=
  if et.running then
    (et, [Event.warn "ExifTool already running; doing nothing.".data])
  else
    (⟨et.executable, true⟩,
     [Event.spawn [et.executable, "-stay_open".data, "True".data, "-@".data, "-".data]])

/-- `ExifTool.terminate`: do nothing if not running; otherwise write the
shutdown directive, flush, wait for the process (`communicate`), release the
handle (`del self._process`) and reset `running`. -/
def ExifTool.terminate (et : ExifTool) : ExifTool × List Event :=
  if et.running then
    (⟨et.executable, false⟩,
     [Event.stdinWrite "-stay_open\nFalse\n".data, Event.stdinFlush,
      Event.communicate, Event.delProcess])
  else
    (et, [])

/-- `ExifTool.__enter__`: calls `start` and returns the instance. -/
def ExifTool.enterContext (et : ExifTool) : ExifTool × List Event :=
  et.start

/-- `ExifTool.__exit__`: ignores the exception triple and calls `terminate`. -/
def ExifTool.exitContext (et : ExifTool)
    (_excType _excVal _excTb : Option PyStr) : ExifTool × List Event :=
  et.terminate

/-- `ExifTool.__del__`: calls `terminate`. -/
def ExifTool.delInstance (et : ExifTool) : ExifTool × List Event :=
  et.terminate

/-- The trailing directive `"-execute\n"` appended by `execute`. -/
def execDirective : PyStr := "-execute\n".data

/-- Python `str.join("\n", parts)`. -/
def pyJoinNewline (parts : List PyStr) : PyStr :=
  List.intercalate "\n".data parts

/-- The full payload `execute` writes to stdin:
`str.join("\n", params + ("-execute\n",))`. -/
def executePayload (params : List PyStr) : PyStr :=
  pyJoinNewline (params ++ [execDirective])

/-- Python `output[:-len(sentinel)]`: drop the sentinel-length suffix. -/
def stripSentinel (out : PyStr) : PyStr :=
  out.take (out.length - sentinel.length)

/-- The read loop of `execute`:
`while not output.endswith(sentinel): output += os.read(fd, block_size)`,
followed by `return output[:-len(sentinel)]`.  The chunk list supplies the
successive return values of `os.read`; `none` means the chunks ran out before
the sentinel appeared, i.e. the loop would block forever waiting for more
bytes. -/
def readLoop : List PyStr → PyStr → Option PyStr
  | [], out =>
    if sentinel.isSuffixOf out then some (stripSentinel out) else none
  | c :: rest, out =>
    if sentinel.isSuffixOf out then some (stripSentinel out)
    else readLoop rest (out ++ c)

/-- Outcome of `ExifTool.execute`: the `ValueError` for a stopped instance, an
indefinite block, or the returned output. -/
inductive ExecResult where
  | notRunning
  | blocked
  | ok (out : PyStr)
deriving DecidableEq

/-- `ExifTool.execute`: raise `ValueError` when not running; otherwise append
the execute directive, write the newline-joined payload to stdin, flush, and
run the sentinel read loop over the chunks `os.read` delivers. -/
def ExifTool.execute (et : ExifTool) (params : List PyStr) (chunks : List PyStr) :
    ExecResult × ExifTool × List Event :=
  if et.running then
    match readLoop chunks [] with
    | some out =>
      (ExecResult.ok out, et,
       [Event.stdinWrite (executePayload params), Event.stdinFlush])
    | none =>
      (ExecResult.blocked, et,
       [Event.stdinWrite (executePayload params), Event.stdinFlush])
  else
    (ExecResult.notRunning, et, [])

/-- A scalar JSON value, as produced by the structured-text collaborator
(string, number kept as its raw token text, boolean, or null). -/
inductive JVal where
  | str (s : PyStr)
  | num (raw : PyStr)
  | bool (b : Bool)
  | null
deriving DecidableEq

/-- A parsed per-file record: an insertion-ordered mapping from field
identifiers to values (a Python dict). -/
abbrev PyDict := List (PyStr × JVal)

/-- JSON whitespace. -/
def isJsonWs (c : Char) : Bool :=
  c = ' ' || c = '\n' || c = '\t' || c = '\r'

/-- Skip leading whitespace. -/
def skipWs : PyStr → PyStr
  | [] => []
  | c :: rest => if isJsonWs c then skipWs rest else c :: rest

/-- Read the body of a quoted string up to the closing quote. -/
def parseStringBody : PyStr → Option (PyStr × PyStr)
  | [] => none
  | c :: rest =>
    if c = '"' then some ([], rest)
    else (parseStringBody rest).map (fun p => (c :: p.1, p.2))

/-- Characters ending an unquoted scalar token. -/
def isTokenDelim (c : Char) : Bool :=
  c = ',' || c = '\x7d' || c = ']' || isJsonWs c

/-- Interpret an unquoted scalar token. -/
def classifyRaw (raw : PyStr) : JVal :=
  if raw = "true".data then JVal.bool true
  else if raw = "false".data then JVal.bool false
  else if raw = "null".data then JVal.null
  else JVal.num raw

/-- Parse one scalar value (quoted string or unquoted token). -/
def parseScalar (s : PyStr) : Option (JVal × PyStr) :=
  match skipWs s with
  | [] => none
  | c :: rest =>
    if c = '"' then (parseStringBody rest).map (fun p => (JVal.str p.1, p.2))
    else
      let raw := (c :: rest).takeWhile (fun ch => !(isTokenDelim ch))
      let rem := (c :: rest).dropWhile (fun ch => !(isTokenDelim ch))
      if raw = [] then none else some (classifyRaw raw, rem)

/-- Skip whitespace, then require the character `c`. -/
def expectChar (c : Char) (s : PyStr) : Option PyStr :=
  match skipWs s with
  | [] => none
  | c' :: rest => if c' = c then some rest else none

/-- Parse one `"key": value` pair. -/
def parsePair (s : PyStr) : Option ((PyStr × JVal) × PyStr) := do
  let s1 ← expectChar '"' s
  let (key, s2) ← parseStringBody s1
  let s3 ← expectChar ':' s2
  let (v, s4) ← parseScalar s3
  some ((key, v), s4)

/-- Parse the comma-separated pairs of an object body, up to the closing
brace.  `fuel` bounds the number of pairs. -/
def parseObjectRest (fuel : Nat) (s : PyStr) : Option (PyDict × PyStr) :=
  match fuel with
  | 0 => none
  | fuel + 1 => do
    let (kv, s1) ← parsePair s
    match skipWs s1 with
    | [] => none
    | c :: rest =>
      if c = ',' then do
        let (d, s2) ← parseObjectRest fuel rest
        some (kv :: d, s2)
      else if c = '\x7d' then some ([kv], rest)
      else none

/-- Parse one flat object. -/
def parseObject (fuel : Nat) (s : PyStr) : Option (PyDict × PyStr) := do
  let s1 ← expectChar '\x7b' s
  match skipWs s1 with
  | '\x7d' :: rest => some ([], rest)
  | s2 => parseObjectRest fuel s2

/-- Parse the comma-separated objects of an array body, up to the closing
bracket.  `fuel` bounds the number of objects. -/
def parseArrayRest (fuel : Nat) (s : PyStr) : Option (List PyDict × PyStr) :=
  match fuel with
  | 0 => none
  | fuel + 1 => do
    let (obj, s1) ← parseObject fuel s
    match skipWs s1 with
    | [] => none
    | c :: rest =>
      if c = ',' then do
        let (objs, s2) ← parseArrayRest fuel rest
        some (obj :: objs, s2)
      else if c = ']' then some ([obj], rest)
      else none

/-- Modelled from the spec: the structured-text collaborator (`json.loads` of
the CPython standard library, which is not part of this repository).  Per the
spec it turns a batch response into "a sequence of mappings (one per input
file), each mapping field identifiers ... to values of heterogeneous scalar
type", and fails on malformed text.  It is modelled as a parser of a JSON
array of flat objects with scalar values (string escapes are not modelled). -/
def json_loads (s : PyStr) : Option (List PyDict) := do
  let s1 ← expectChar '[' s
  match skipWs s1 with
  | ']' :: rest => if skipWs rest = [] then some [] else none
  | s2 => do
    let (objs, s3) ← parseArrayRest (s.length + 1) s2
    if skipWs s3 = [] then some objs else none

/-- Outcome of `ExifTool.get_metadata_batch`. -/
inductive MetaResult where
  | notRunning
  | blocked
  | parseError
  | records (rs : List PyDict)
deriving DecidableEq

/-- `ExifTool.get_metadata_batch`:
`json.loads(self.execute("-G", "-j", "-n", *params))`. -/
def ExifTool.get_metadata_batch (et : ExifTool) (params : List PyStr)
    (chunks : List PyStr) : MetaResult × ExifTool × List Event :=
  match et.execute (["-G".data, "-j".data, "-n".data] ++ params) chunks with
  | (ExecResult.ok out, et', evs) =>
    match json_loads out with
    | some rs => (MetaResult.records rs, et', evs)
    | none => (MetaResult.parseError, et', evs)
  | (ExecResult.notRunning, et', evs) => (MetaResult.notRunning, et', evs)
  | (ExecResult.blocked, et', evs) => (MetaResult.blocked, et', evs)

/-- A Python argument that is either a single string (`basestring`) or a list
of strings: the runtime shapes `get_tags_batch` distinguishes with
`isinstance(..., basestring)`. -/
inductive PyArg where
  | str (s : PyStr)
  | list (l : List PyStr)
deriving DecidableEq

/-- Outcome of `ExifTool.get_tags_batch`. -/
inductive TagsResult where
  | typeErrorTags
  | typeErrorFilenames
  | notRunning
  | blocked
  | parseError
  | records (rs : List PyDict)
deriving DecidableEq

/-- `ExifTool.get_tags_batch`: raise `TypeError` when `tags` or `filenames`
is a single string; otherwise build `["-" + t for t in tags]` extended with
the filenames and delegate to `get_metadata_batch`. -/
def ExifTool.get_tags_batch (et : ExifTool) (tags filenames : PyArg)
    (chunks : List PyStr) : TagsResult × ExifTool × List Event :=
  match tags with
  | PyArg.str _ => (TagsResult.typeErrorTags, et, [])
  | PyArg.list tagList =>
    match filenames with
    | PyArg.str _ => (TagsResult.typeErrorFilenames, et, [])
    | PyArg.list fileList =>
      let params := tagList.map (fun t => '-' :: t) ++ fileList
      match et.get_metadata_batch params chunks with
      | (MetaResult.records rs, et', evs) => (TagsResult.records rs, et', evs)
      | (MetaResult.notRunning, et', evs) => (TagsResult.notRunning, et', evs)
      | (MetaResult.blocked, et', evs) => (TagsResult.blocked, et', evs)
      | (MetaResult.parseError, et', evs) => (TagsResult.parseError, et', evs)

/-- The reserved field identifying the originating file. -/
def sourceFileKey : PyStr := "SourceFile".data

/-- Python `d.pop(key)`: remove the binding of `key` and return its value and
the remaining dict, or `none` (a `KeyError`) when `key` is absent. -/
def dictPop : PyDict → PyStr → Option (JVal × PyDict)
  | [], _ => none
  | (k, v) :: rest, key =>
    if k = key then some (v, rest)
    else (dictPop rest key).map (fun p => (p.1, (k, v) :: p.2))

/-- Python `next(d.itervalues(), None)`: the first value of the dict, or
`None` when it is empty. -/
def headValue : PyDict → Option JVal
  | [] => none
  | (_, v) :: _ => some v

/-- The result-building loop of `get_tag_batch`: for each record, pop
`"SourceFile"` (propagating the `KeyError` as `none`) and take the first
remaining value, defaulting to `None`. -/
def get_tag_batch_loop : List PyDict → Option (List (Option JVal))
  | [] => some []
  | d :: rest =>
    match dictPop d sourceFileKey with
    | none => none
    | some (_, d') =>
      match get_tag_batch_loop rest with
      | none => none
      | some out => some (headValue d' :: out)

/-- Outcome of `ExifTool.get_tag_batch`. -/
inductive TagResult where
  | typeErrorTags
  | typeErrorFilenames
  | notRunning
  | blocked
  | parseError
  | keyError
  | values (vs : List (Option JVal))
deriving DecidableEq

/-- `ExifTool.get_tag_batch`: `get_tags_batch([tag], filenames)` followed by
the per-record pop/first-value loop. -/
def ExifTool.get_tag_batch (et : ExifTool) (tag : PyStr) (filenames : PyArg)
    (chunks : List PyStr) : TagResult × ExifTool × List Event :=
  match et.get_tags_batch (PyArg.list [tag]) filenames chunks with
  | (TagsResult.records rs, et', evs) =>
    match get_tag_batch_loop rs with
    | some vs => (TagResult.values vs, et', evs)
    | none => (TagResult.keyError, et', evs)
  | (TagsResult.typeErrorTags, et', evs) => (TagResult.typeErrorTags, et', evs)
  | (TagsResult.typeErrorFilenames, et', evs) => (TagResult.typeErrorFilenames, et', evs)
  | (TagsResult.notRunning, et', evs) => (TagResult.notRunning, et', evs)
  | (TagsResult.blocked, et', evs) => (TagResult.blocked, et', evs)
  | (TagsResult.parseError, et', evs) => (TagResult.parseError, et', evs)

/-! ## Lifecycle theorems -/

/-- Both branches of `terminate` leave the `running` flag false. -/
theorem terminate_running_eq_false (et : ExifTool) :
    (et.terminate).1.running = false := by
  by_cases h : et.running <;> simp [ExifTool.terminate, h]

/-- C3: on an instance whose `running` flag is false — as every instance is
immediately after `terminate` — `execute` raises the invalid-state
`ValueError` at once: no event is emitted (nothing is written to stdin) and
the state is unchanged. -/
theorem execute_requires_running (et : ExifTool) (params chunks : List PyStr)
    (h : et.running = false) :
    et.execute params chunks = (ExecResult.notRunning, et, []) ∧
    (et.terminate).1.running = false := by
  refine ⟨?_, terminate_running_eq_false et⟩
  simp [ExifTool.execute, h]

theorem execute_requires_running_witness :
    (ExifTool.init none).execute [] [] =
      (ExecResult.notRunning, ExifTool.init none, []) :=
  (execute_requires_running (ExifTool.init none) [] [] rfl).1

/-- C6: calling `start` on a running instance performs no state change and
spawns no second process: it only emits the non-fatal warning, and no `spawn`
event occurs in its trace. -/
theorem start_noop_when_running (et : ExifTool) (h : et.running = true) :
    et.start = (et, [Event.warn "ExifTool already running; doing nothing.".data]) ∧
    ∀ e ∈ (et.start).2, ∀ argv, e ≠ Event.spawn argv := by
  have hs : et.start = (et, [Event.warn "ExifTool already running; doing nothing.".data]) := by
    simp [ExifTool.start, h]
  refine ⟨hs, ?_⟩
  intro e he argv
  rw [hs] at he
  simp only [List.mem_singleton] at he
  subst he
  intro hcontra
  exact Event.noConfusion hcontra

theorem start_noop_when_running_witness :
    (ExifTool.init none).start.1.start =
      ((ExifTool.init none).start.1,
       [Event.warn "ExifTool already running; doing nothing.".data]) :=
  (start_noop_when_running (ExifTool.init none).start.1 rfl).1

/-- C7: `terminate` on a non-running instance performs no action at all (no
events, state unchanged), so a second `terminate` right after a first one is
side-effect-free. -/
theorem terminate_noop_when_not_running (et : ExifTool) (h : et.running = false) :
    et.terminate = (et, []) ∧
    ((et.terminate).1).terminate = ((et.terminate).1, []) := by
  have h1 : et.terminate = (et, []) := by simp [ExifTool.terminate, h]
  refine ⟨h1, ?_⟩
  have h2 := terminate_running_eq_false et
  generalize hu : (et.terminate).1 = u at h2 ⊢
  simp [ExifTool.terminate, h2]

theorem terminate_noop_when_not_running_witness :
    (ExifTool.init none).terminate = (ExifTool.init none, []) :=
  (terminate_noop_when_not_running (ExifTool.init none) rfl).1

/-- C8: `terminate` on a running instance writes the two-line shutdown
directive, flushes, waits for the child to exit and drain (`communicate`),
releases the process handle, and resets the `running` flag to false, in that
order. -/
theorem terminate_shutdown_sequence (et : ExifTool) (h : et.running = true) :
    et.terminate =
      (⟨et.executable, false⟩,
       [Event.stdinWrite "-stay_open\nFalse\n".data, Event.stdinFlush,
        Event.communicate, Event.delProcess]) := by
  simp [ExifTool.terminate, h]

theorem terminate_shutdown_sequence_witness :
    (ExifTool.init none).start.1.terminate =
      (⟨defaultExecutable, false⟩,
       [Event.stdinWrite "-stay_open\nFalse\n".data, Event.stdinFlush,
        Event.communicate, Event.delProcess]) :=
  terminate_shutdown_sequence (ExifTool.init none).start.1 rfl

/-- C9: exiting the context-manager scope (`__exit__`, whatever the exception
triple is) and destroying the instance (`__del__`) both call `terminate`, and
after either the `running` flag is false: the child process does not outlive
the scope. -/
theorem cleanup_calls_terminate (et : ExifTool) (a b c : Option PyStr) :
    et.exitContext a b c = et.terminate ∧
    et.delInstance = et.terminate ∧
    (et.exitContext a b c).1.running = false ∧
    (et.delInstance).1.running = false :=
  ⟨rfl, rfl, terminate_running_eq_false et, terminate_running_eq_false et⟩

/-! ## The sentinel read loop -/

/-- Once the buffer ends with the sentinel, the loop stops and strips it. -/
theorem readLoop_of_suffix (chunks : List PyStr) (out : PyStr)
    (h : sentinel.isSuffixOf out = true) :
    readLoop chunks out = some (stripSentinel out) := by
  cases chunks <;> simp [readLoop, h]

/-- While the buffer does not end with the sentinel, the loop appends the
next chunk. -/
theorem readLoop_cons_of_not_suffix (c : PyStr) (rest : List PyStr) (out : PyStr)
    (h : sentinel.isSuffixOf out = false) :
    readLoop (c :: rest) out = readLoop rest (out ++ c) := by
  simp [readLoop, h]

/-- Rearrangement of the accumulation buffer after one more chunk. -/
theorem accum_shift (out c : PyStr) (rest : List PyStr) (j : Nat) :
    out ++ ((c :: rest).take (j + 1)).flatten = (out ++ c) ++ (rest.take j).flatten := by
  simp [List.take_succ_cons, List.append_assoc]

/-- If the read loop returns a value, there is a number of reads `k` at which
the accumulated buffer first ends with the sentinel, and the value is that
buffer with the sentinel-length suffix removed. -/
theorem readLoop_some_fwd :
    ∀ (chunks : List PyStr) (out r : PyStr),
      readLoop chunks out = some r →
      ∃ k, k ≤ chunks.length ∧
        sentinel.isSuffixOf (out ++ (chunks.take k).flatten) = true ∧
        (∀ j, j < k → sentinel.isSuffixOf (out ++ (chunks.take j).flatten) = false) ∧
        r = stripSentinel (out ++ (chunks.take k).flatten) := by
  intro chunks
  induction chunks with
  | nil =>
    intro out r h
    cases hs : sentinel.isSuffixOf out with
    | false => simp [readLoop, hs] at h
    | true =>
      simp [readLoop, hs] at h
      refine ⟨0, Nat.le_refl 0, ?_, ?_, ?_⟩
      · simp only [List.take_nil, List.flatten_nil, List.append_nil]
        exact hs
      · intro j hj; exact absurd hj (Nat.not_lt_zero j)
      · simp only [List.take_nil, List.flatten_nil, List.append_nil]
        exact h.symm
  | cons c rest ih =>
    intro out r h
    cases hs : sentinel.isSuffixOf out with
    | false =>
      rw [readLoop_cons_of_not_suffix c rest out hs] at h
      obtain ⟨k, hk, hsuf, hmin, hr⟩ := ih (out ++ c) r h
      refine ⟨k + 1, Nat.succ_le_succ hk, ?_, ?_, ?_⟩
      · rw [accum_shift]; exact hsuf
      · intro j hj
        cases j with
        | zero =>
          simp only [List.take_zero, List.flatten_nil, List.append_nil]
          exact hs
        | succ j' =>
          rw [accum_shift]
          exact hmin j' (Nat.lt_of_succ_lt_succ hj)
      · rw [accum_shift]; exact hr
    | true =>
      rw [readLoop_of_suffix (c :: rest) out hs] at h
      have hval := Option.some.inj h
      refine ⟨0, Nat.zero_le _, ?_, ?_, ?_⟩
      · simp only [List.take_zero, List.flatten_nil, List.append_nil]
        exact hs
      · intro j hj; exact absurd hj (Nat.not_lt_zero j)
      · simp only [List.take_zero, List.flatten_nil, List.append_nil]
        exact hval.symm

/-- Conversely, if after `k ≤ chunks.length` reads the buffer ends with the
sentinel and never did before, the loop returns that buffer stripped of the
sentinel suffix. -/
theorem readLoop_some_bwd :
    ∀ (chunks : List PyStr) (out : PyStr) (k : Nat),
      k ≤ chunks.length →
      sentinel.isSuffixOf (out ++ (chunks.take k).flatten) = true →
      (∀ j, j < k → sentinel.isSuffixOf (out ++ (chunks.take j).flatten) = false) →
      readLoop chunks out = some (stripSentinel (out ++ (chunks.take k).flatten)) := by
  intro chunks
  induction chunks with
  | nil =>
    intro out k hk hsuf _hmin
    have hk0 : k = 0 := Nat.le_zero.mp hk
    subst hk0
    simp only [List.take_nil, List.flatten_nil, List.append_nil] at hsuf ⊢
    simp [readLoop, hsuf]
  | cons c rest ih =>
    intro out k hk hsuf hmin
    cases k with
    | zero =>
      simp only [List.take_zero, List.flatten_nil, List.append_nil] at hsuf ⊢
      exact readLoop_of_suffix (c :: rest) out hsuf
    | succ k' =>
      have h0 : sentinel.isSuffixOf out = false := by
        have := hmin 0 (Nat.succ_pos k')
        simpa only [List.take_zero, List.flatten_nil, List.append_nil] using this
      rw [readLoop_cons_of_not_suffix c rest out h0]
      have hrec := ih (out ++ c) k' (Nat.le_of_succ_le_succ hk)
        (by rw [← accum_shift]; exact hsuf)
        (fun j hj => by rw [← accum_shift]; exact hmin (j + 1) (Nat.succ_lt_succ hj))
      rw [hrec, accum_shift]

/-- C2: the read loop stops exactly when the accumulated buffer ends with the
sentinel (exact-suffix match), and returns the accumulation with exactly the
sentinel-length suffix removed; a sentinel occurrence that is not at the very
end of the buffer neither stops the loop nor is stripped. -/
theorem readLoop_stops_iff_suffix (chunks : List PyStr) (out r : PyStr) :
    readLoop chunks out = some r ↔
      ∃ k, k ≤ chunks.length ∧
        sentinel.isSuffixOf (out ++ (chunks.take k).flatten) = true ∧
        (∀ j, j < k → sentinel.isSuffixOf (out ++ (chunks.take j).flatten) = false) ∧
        r = stripSentinel (out ++ (chunks.take k).flatten) := by
  constructor
  · exact readLoop_some_fwd chunks out r
  · rintro ⟨k, hk, hsuf, hmin, hr⟩
    rw [hr]
    exact readLoop_some_bwd chunks out k hk hsuf hmin

theorem readLoop_stops_iff_suffix_witness :
    readLoop ["ab".data, "cd".data ++ sentinel] [] = some "abcd".data ↔
      ∃ k, k ≤ (["ab".data, "cd".data ++ sentinel] : List PyStr).length ∧
        sentinel.isSuffixOf (([] : PyStr) ++ ((["ab".data, "cd".data ++ sentinel] : List PyStr).take k).flatten) = true ∧
        (∀ j, j < k → sentinel.isSuffixOf (([] : PyStr) ++ ((["ab".data, "cd".data ++ sentinel] : List PyStr).take j).flatten) = false) ∧
        "abcd".data = stripSentinel (([] : PyStr) ++ ((["ab".data, "cd".data ++ sentinel] : List PyStr).take k).flatten) :=
  readLoop_stops_iff_suffix ["ab".data, "cd".data ++ sentinel] [] "abcd".data

/-- Stripping the sentinel from a response followed by the sentinel yields
exactly the response. -/
theorem stripSentinel_append (resp : PyStr) :
    stripSentinel (resp ++ sentinel) = resp := by
  unfold stripSentinel
  rw [List.length_append, Nat.add_sub_cancel]
  exact List.take_left resp sentinel

/-- The sentinel is a suffix of any buffer ending in it. -/
theorem isSuffixOf_append_sentinel (resp : PyStr) :
    sentinel.isSuffixOf (resp ++ sentinel) = true := by
  rw [List.isSuffixOf_iff_suffix]
  exact List.suffix_append resp sentinel

/-- Whether a sentinel occurrence starts strictly before the position of the
final one, i.e. whether the stream contains sentinel text inside the batch
content.  (A protocol-conforming external tool never produces this: the spec
states the terminator is never itself valid batch content.) -/
def hasEarlySentinel (s : PyStr) : Bool :=
  (List.range (s.length - sentinel.length)).any
    (fun i => sentinel.isPrefixOf (s.drop i))

/-- If the whole stream is `resp ++ sentinel` with no early sentinel
occurrence and no read returns an empty chunk, then no strict prefix of the
chunk sequence accumulates to a buffer ending with the sentinel. -/
theorem no_early_stop (chunks : List PyStr) (resp : PyStr)
    (hne : ∀ c ∈ chunks, c ≠ ([] : PyStr))
    (hjoin : chunks.flatten = resp ++ sentinel)
    (hearly : hasEarlySentinel (resp ++ sentinel) = false) :
    ∀ j, j < chunks.length → sentinel.isSuffixOf ((chunks.take j).flatten) = false := by
  intro j hj
  cases hb : sentinel.isSuffixOf ((chunks.take j).flatten) with
  | false => rfl
  | true =>
    exfalso
    obtain ⟨p, hp⟩ := List.isSuffixOf_iff_suffix.mp hb
    have hsplit : (chunks.take j).flatten ++ (chunks.drop j).flatten = resp ++ sentinel := by
      rw [← List.flatten_append, List.take_append_drop]
      exact hjoin
    have hdrop : chunks.drop j ≠ [] := by
      intro h0
      have := List.drop_eq_nil_iff.mp h0
      omega
    obtain ⟨c0, rest0, hd⟩ := List.exists_cons_of_ne_nil hdrop
    have hqne : (chunks.drop j).flatten ≠ [] := by
      rw [hd, List.flatten_cons]
      intro habs
      exact hne c0 (List.mem_of_mem_drop (hd ▸ List.mem_cons_self c0 rest0))
        (List.append_eq_nil.mp habs).1
    have hposition : resp ++ sentinel = p ++ (sentinel ++ (chunks.drop j).flatten) := by
      rw [← List.append_assoc, hp]
      exact hsplit.symm
    have hlenq : 0 < (chunks.drop j).flatten.length := List.length_pos.mpr hqne
    have hlen : p.length < resp.length := by
      have h1 := congrArg List.length hposition
      simp only [List.length_append] at h1
      omega
    have hpref : sentinel.isPrefixOf ((resp ++ sentinel).drop p.length) = true := by
      rw [hposition, List.drop_left]
      rw [List.isPrefixOf_iff_prefix]
      exact List.prefix_append sentinel (chunks.drop j).flatten
    have htrue : hasEarlySentinel (resp ++ sentinel) = true := by
      unfold hasEarlySentinel
      rw [List.any_eq_true]
      refine ⟨p.length, List.mem_range.mpr ?_, hpref⟩
      simp only [List.length_append]
      omega
    rw [htrue] at hearly
    exact Bool.noConfusion hearly

/-- Under the protocol assumptions — the stream delivered for this batch is
exactly the response followed by the sentinel, every read returns at least one
byte, and the sentinel does not occur inside the response — the read loop
consumes every chunk and returns exactly the response. -/
theorem readLoop_protocol (chunks : List PyStr) (resp : PyStr)
    (hne : ∀ c ∈ chunks, c ≠ ([] : PyStr))
    (hjoin : chunks.flatten = resp ++ sentinel)
    (hearly : hasEarlySentinel (resp ++ sentinel) = false) :
    readLoop chunks [] = some resp ∧
    ∀ j, j < chunks.length → sentinel.isSuffixOf ((chunks.take j).flatten) = false := by
  have hmin := no_early_stop chunks resp hne hjoin hearly
  refine ⟨?_, hmin⟩
  have hcall := readLoop_some_bwd chunks [] chunks.length (Nat.le_refl _)
    (by simp only [List.take_length, List.nil_append, hjoin]
        exact isSuffixOf_append_sentinel resp)
    (fun j hj => by simpa only [List.nil_append] using hmin j hj)
  rw [hcall]
  simp only [List.take_length, List.nil_append, hjoin, stripSentinel_append]

/-- The claim C1 in the spec's words: the bytes the external tool wrote
before the first occurrence of the sentinel in the stream (or `none` when no
occurrence exists).  This is a second, spec-side definition, to be compared
with what the code's read loop actually returns. -/
def beforeFirstSentinel (s : PyStr) : Option PyStr :=
  if sentinel.isPrefixOf s then some []
  else
    match s with
    | [] => none
    | c :: rest => (beforeFirstSentinel rest).map (fun p => c :: p)

/-- A stream containing the sentinel inside the batch content, delivered by a
single read. -/
def cexStream : PyStr := "a".data ++ sentinel ++ "b".data ++ sentinel

/-- C1 counterexample: when the tool's bytes contain a sentinel occurrence
that is not at the end of the stream and a single read delivers them all,
`execute` returns more than the bytes before the first occurrence — it
consumes bytes past the first sentinel and retains a full sentinel occurrence
in its return value. -/
theorem execute_first_occurrence_cex :
    beforeFirstSentinel cexStream = some "a".data ∧
    (ExifTool.init none).start.1.execute [] [cexStream] =
      (ExecResult.ok ("a".data ++ sentinel ++ "b".data), (ExifTool.init none).start.1,
       [Event.stdinWrite (executePayload []), Event.stdinFlush]) ∧
    ("a".data ++ sentinel ++ "b".data) ≠ "a".data := by
  refine ⟨by decide, by decide, by decide⟩

/-- C1 (amended): when the bytes the tool writes for the batch are exactly
the response followed by one sentinel, with no sentinel occurrence inside the
response, then however `os.read` chunks them (each read returning at least
one byte), `execute` on a running instance writes the payload, consumes the
whole stream — no byte is left for the next batch, no partial sentinel is
retained — and returns exactly the response with the sentinel removed. -/
theorem execute_exact_batch (et : ExifTool) (params chunks : List PyStr) (resp : PyStr)
    (hrun : et.running = true)
    (hne : ∀ c ∈ chunks, c ≠ ([] : PyStr))
    (hjoin : chunks.flatten = resp ++ sentinel)
    (hearly : hasEarlySentinel (resp ++ sentinel) = false) :
    et.execute params chunks =
      (ExecResult.ok resp, et,
       [Event.stdinWrite (executePayload params), Event.stdinFlush]) ∧
    ∀ j, j < chunks.length → sentinel.isSuffixOf ((chunks.take j).flatten) = false := by
  obtain ⟨h1, h2⟩ := readLoop_protocol chunks resp hne hjoin hearly
  refine ⟨?_, h2⟩
  simp [ExifTool.execute, hrun, h1]

theorem execute_exact_batch_witness :
    (ExifTool.init none).start.1.execute ["-ver".data] ["x".data ++ sentinel] =
      (ExecResult.ok "x".data, (ExifTool.init none).start.1,
       [Event.stdinWrite (executePayload ["-ver".data]), Event.stdinFlush]) :=
  (execute_exact_batch (ExifTool.init none).start.1 ["-ver".data]
    ["x".data ++ sentinel] "x".data rfl (by decide) (by decide) (by decide)).1

/-- C4: on a running instance, requesting all metadata for zero files sends
the well-formed query `-G\n-j\n-n\n-execute\n` and — given the collaborator
contract that the tool's response to it parses as a sequence of zero records
— returns the empty record list: no error is raised and the call
terminates. -/
theorem get_metadata_batch_empty (et : ExifTool) (chunks : List PyStr) (resp : PyStr)
    (hrun : et.running = true)
    (hne : ∀ c ∈ chunks, c ≠ ([] : PyStr))
    (hjoin : chunks.flatten = resp ++ sentinel)
    (hearly : hasEarlySentinel (resp ++ sentinel) = false)
    (hparse : json_loads resp = some []) :
    et.get_metadata_batch [] chunks =
      (MetaResult.records [], et,
       [Event.stdinWrite (executePayload ["-G".data, "-j".data, "-n".data]),
        Event.stdinFlush]) := by
  obtain ⟨h1, _⟩ := readLoop_protocol chunks resp hne hjoin hearly
  simp [ExifTool.get_metadata_batch, ExifTool.execute, hrun, h1, hparse]

theorem get_metadata_batch_empty_witness :
    (ExifTool.init none).start.1.get_metadata_batch [] ["[]".data ++ sentinel] =
      (MetaResult.records [], (ExifTool.init none).start.1,
       [Event.stdinWrite (executePayload ["-G".data, "-j".data, "-n".data]),
        Event.stdinFlush]) :=
  get_metadata_batch_empty (ExifTool.init none).start.1 ["[]".data ++ sentinel]
    "[]".data rfl (by decide) (by decide) (by decide) (by decide)

/-- C5: passing a single string where an iterable of strings is required —
for the `tags` or the `filenames` parameter — makes `get_tags_batch` fail
with the caller-misuse `TypeError` before anything is sent to the external
process (empty event trace, unchanged state); `get_tag_batch`, layered on it,
propagates the same failure for a string `filenames`. -/
theorem get_tags_batch_rejects_string (et : ExifTool) (tags filenames : PyArg)
    (chunks : List PyStr)
    (h : (∃ s, tags = PyArg.str s) ∨ (∃ s, filenames = PyArg.str s)) :
    (∃ r, (r = TagsResult.typeErrorTags ∨ r = TagsResult.typeErrorFilenames) ∧
      et.get_tags_batch tags filenames chunks = (r, et, ([] : List Event))) ∧
    ∀ tag s, et.get_tag_batch tag (PyArg.str s) chunks =
      (TagResult.typeErrorFilenames, et, ([] : List Event)) := by
  refine ⟨?_, fun tag s => rfl⟩
  cases tags with
  | str s => exact ⟨TagsResult.typeErrorTags, Or.inl rfl, rfl⟩
  | list l =>
    cases filenames with
    | str s => exact ⟨TagsResult.typeErrorFilenames, Or.inr rfl, rfl⟩
    | list l2 =>
      exfalso
      rcases h with ⟨s, hs⟩ | ⟨s, hs⟩ <;> exact PyArg.noConfusion hs

theorem get_tags_batch_rejects_string_witness :
    ∃ r, (r = TagsResult.typeErrorTags ∨ r = TagsResult.typeErrorFilenames) ∧
      (ExifTool.init none).start.1.get_tags_batch
        (PyArg.str "EXIF:Orientation".data) (PyArg.list ["a.jpg".data]) [] =
        (r, (ExifTool.init none).start.1, ([] : List Event)) :=
  (get_tags_batch_rejects_string (ExifTool.init none).start.1
    (PyArg.str "EXIF:Orientation".data) (PyArg.list ["a.jpg".data]) []
    (Or.inl ⟨"EXIF:Orientation".data, rfl⟩)).1

/-! ## The per-record reshaping of `get_tag_batch` -/

/-- Successful `dictPop` decomposes the dict around the first binding of the
key, and all earlier bindings have a different key. -/
theorem dictPop_eq_some_decomp :
    ∀ (d : PyDict) (key : PyStr) (v : JVal) (d' : PyDict),
      dictPop d key = some (v, d') →
      ∃ pre post, d = pre ++ (key, v) :: post ∧ d' = pre ++ post ∧
        ∀ kv ∈ pre, kv.1 ≠ key := by
  intro d
  induction d with
  | nil => intro key v d' h; simp [dictPop] at h
  | cons kw rest ih =>
    intro key v d' h
    obtain ⟨k, w⟩ := kw
    by_cases hk : k = key
    · subst hk
      simp [dictPop] at h
      obtain ⟨hv, hd⟩ := h
      refine ⟨[], rest, ?_, ?_, ?_⟩ <;> simp [hv, hd]
    · have hstep : dictPop ((k, w) :: rest) key =
          (dictPop rest key).map (fun p => (p.1, (k, w) :: p.2)) := by
        simp [dictPop, hk]
      rw [hstep] at h
      cases hrec : dictPop rest key with
      | none => rw [hrec] at h; simp at h
      | some p =>
        obtain ⟨v0, rest'⟩ := p
        rw [hrec] at h
        simp only [Option.map_some'] at h
        obtain ⟨hv0, hd'⟩ := Prod.mk.inj (Option.some.inj h)
        subst hv0
        obtain ⟨pre, post, h1, h2, h3⟩ := ih key v0 rest' hrec
        refine ⟨(k, w) :: pre, post, ?_, ?_, ?_⟩
        · simp [h1]
        · rw [← hd', h2]; rfl
        · intro kv hkv
          rcases List.mem_cons.mp hkv with hkv | hkv
          · rw [hkv]; exact hk
          · exact h3 kv hkv

/-- `dictPop` succeeds whenever the key is present. -/
theorem dictPop_of_mem_keys :
    ∀ (d : PyDict) (key : PyStr), key ∈ d.map Prod.fst →
      ∃ v d', dictPop d key = some (v, d') := by
  intro d
  induction d with
  | nil => intro key h; simp at h
  | cons kw rest ih =>
    intro key h
    obtain ⟨k, w⟩ := kw
    by_cases hk : k = key
    · subst hk; exact ⟨w, rest, by simp [dictPop]⟩
    · have hmem : key ∈ rest.map Prod.fst := by
        simp only [List.map_cons, List.mem_cons] at h
        rcases h with h | h
        · exact absurd h.symm hk
        · exact h
      obtain ⟨v, d', hrec⟩ := ih key hmem
      exact ⟨v, (k, w) :: d', by simp [dictPop, hk, hrec]⟩

/-- For a record with distinct field names containing `"SourceFile"`, popping
`"SourceFile"` succeeds, and the first remaining value — the record's tag
value — is `None` exactly when the record has no other field, and otherwise
is the value of a field other than `"SourceFile"`. -/
theorem record_tag_spec (d : PyDict)
    (hnd : (d.map Prod.fst).Nodup) (hmem : sourceFileKey ∈ d.map Prod.fst) :
    ∃ v d', dictPop d sourceFileKey = some (v, d') ∧
      (headValue d' = none → ∀ kv ∈ d, kv.1 = sourceFileKey) ∧
      (∀ w, headValue d' = some w →
        ∃ kv ∈ d, kv.1 ≠ sourceFileKey ∧ kv.2 = w) := by
  obtain ⟨v, d', hpop⟩ := dictPop_of_mem_keys d sourceFileKey hmem
  obtain ⟨pre, post, hd, hd', hpre⟩ := dictPop_eq_some_decomp d sourceFileKey v d' hpop
  refine ⟨v, d', hpop, ?_, ?_⟩
  · intro hnone kv hkv
    have hnil : d' = [] := by
      cases hcase : d' with
      | nil => rfl
      | cons a b => rw [hcase] at hnone; obtain ⟨ak, av⟩ := a; simp [headValue] at hnone
    rw [hd'] at hnil
    obtain ⟨hpre0, hpost0⟩ := List.append_eq_nil.mp hnil
    rw [hd, hpre0, hpost0] at hkv
    simp only [List.nil_append, List.mem_singleton] at hkv
    rw [hkv]
  · intro w hw
    have hknotpost : sourceFileKey ∉ post.map Prod.fst := by
      rw [hd] at hnd
      simp only [List.map_append, List.map_cons] at hnd
      have h2 : ((sourceFileKey :: post.map Prod.fst) : List PyStr).Nodup :=
        List.Nodup.of_append_right hnd
      exact (List.nodup_cons.mp h2).1
    cases hpre' : pre with
    | nil =>
      rw [hpre', List.nil_append] at hd'
      cases hpost' : post with
      | nil => rw [hd', hpost'] at hw; simp [headValue] at hw
      | cons q qs =>
        obtain ⟨qk, qv⟩ := q
        rw [hd', hpost'] at hw
        simp only [headValue] at hw
        obtain hw := Option.some.inj hw
        refine ⟨(qk, qv), ?_, ?_, by simpa using hw⟩
        · rw [hd, hpre', hpost']; simp
        · intro habs
          apply hknotpost
          rw [hpost', List.map_cons]
          simp only at habs
          rw [← habs]
          exact List.mem_cons_self _ _
    | cons q qs =>
      obtain ⟨qk, qv⟩ := q
      rw [hpre', List.cons_append] at hd'
      rw [hd'] at hw
      simp only [headValue] at hw
      obtain hw := Option.some.inj hw
      refine ⟨(qk, qv), ?_, ?_, by simpa using hw⟩
      · rw [hd, hpre']; simp
      · exact hpre (qk, qv) (by rw [hpre']; exact List.mem_cons_self _ _)

/-- C10: for every list of parsed per-file records whose field names are
distinct and include `"SourceFile"`, the result loop of `get_tag_batch`
yields one output per record in the same order; each output is `None` exactly
when the record has no field besides `"SourceFile"`, and otherwise is the
value of a field other than `"SourceFile"` — the reserved file-identifier
binding is never returned as a tag value. -/
theorem get_tag_batch_loop_shape (data : List PyDict)
    (h : ∀ d ∈ data, (d.map Prod.fst).Nodup ∧ sourceFileKey ∈ d.map Prod.fst) :
    ∃ out, get_tag_batch_loop data = some out ∧
      List.Forall₂ (fun (d : PyDict) (o : Option JVal) =>
        (o = none → ∀ kv ∈ d, kv.1 = sourceFileKey) ∧
        (∀ v, o = some v → ∃ kv ∈ d, kv.1 ≠ sourceFileKey ∧ kv.2 = v))
        data out := by
  induction data with
  | nil => exact ⟨[], rfl, List.Forall₂.nil⟩
  | cons d rest ih =>
    obtain ⟨hnd, hmem⟩ := h d (List.mem_cons_self d rest)
    obtain ⟨v, d', hpop, hnone, hsome⟩ := record_tag_spec d hnd hmem
    obtain ⟨out, hloop, hfa⟩ := ih (fun d2 hd2 => h d2 (List.mem_cons_of_mem d hd2))
    refine ⟨headValue d' :: out, ?_, ?_⟩
    · simp [get_tag_batch_loop, hpop, hloop]
    · exact List.Forall₂.cons ⟨hnone, hsome⟩ hfa

/-- Concrete parsed records: one file with an extra field, one with only the
reserved field. -/
def c10data : List PyDict :=
  [[(sourceFileKey, JVal.str "a.jpg".data), ("EXIF:Orientation".data, JVal.num "1".data)],
   [(sourceFileKey, JVal.str "b.png".data)]]

theorem get_tag_batch_loop_shape_witness :
    (∀ d ∈ c10data, (d.map Prod.fst).Nodup ∧ sourceFileKey ∈ d.map Prod.fst) ∧
    ∃ out, get_tag_batch_loop c10data = some out ∧
      List.Forall₂ (fun (d : PyDict) (o : Option JVal) =>
        (o = none → ∀ kv ∈ d, kv.1 = sourceFileKey) ∧
        (∀ v, o = some v → ∃ kv ∈ d, kv.1 ≠ sourceFileKey ∧ kv.2 = v))
        c10data out :=
  ⟨by decide, get_tag_batch_loop_shape c10data (by decide)⟩
